import Mathlib

/-!
Verification of the objviewer renderer core (src/main.rs, src/errors.rs).

Scalar values that the Rust program stores in `f32` are modelled as exact
rationals (`ℚ`): every constant in the source is a short decimal literal,
and the properties below concern the clamping / copying structure of the
code, not rounding behaviour.  Constants that the program takes from the
platform (`std::f32::consts::FRAC_PI_2`) are modelled by their exact `f32`
value as a rational.
-/

/-- The `f32` value of `std::f32::consts::FRAC_PI_2` (bit pattern 0x3FC90FDB),
as an exact rational. -/
def FRAC_PI_2 : ℚ := 13176795 / 8388608

/-- Rust's `val.clamp(lo, hi)`: below `lo` gives `lo`, above `hi` gives `hi`,
otherwise `val` (for `lo ≤ hi`). -/
def clamp (val lo hi : ℚ) : ℚ := max lo (min val hi)

/-- Embedding of `extract_edges_from_triangles` (src/main.rs:277-296).
`vertex_data.chunks_exact(9)` visits each complete 9-element chunk in order
and ignores any trailing remainder; for each chunk the code appends
`v0 ++ v1 ++ v1 ++ v2 ++ v2 ++ v0` where `v0 = triangle[0..3]`,
`v1 = triangle[3..6]`, `v2 = triangle[6..9]`. -/
def extract_edges_from_triangles : List ℚ → List ℚ
  | x0 :: x1 :: x2 :: x3 :: x4 :: x5 :: x6 :: x7 :: x8 :: rest =>
      [x0, x1, x2] ++ [x3, x4, x5]
        ++ [x3, x4, x5] ++ [x6, x7, x8]
        ++ [x6, x7, x8] ++ [x0, x1, x2]
        ++ extract_edges_from_triangles rest
  | _ => []

/-- A single input triangle: three vertices of three coordinates each,
nine floats in source order. -/
structure Tri where
  x0 : ℚ
  y0 : ℚ
  z0 : ℚ
  x1 : ℚ
  y1 : ℚ
  z1 : ℚ
  x2 : ℚ
  y2 : ℚ
  z2 : ℚ
deriving DecidableEq

/-- The nine floats of a triangle, flattened in source order. -/
def Tri.flat (t : Tri) : List ℚ :=
  [t.x0, t.y0, t.z0, t.x1, t.y1, t.z1, t.x2, t.y2, t.z2]

/-- Modelled from the spec's words (spec 4.1 / 8): the 18 floats a single
triangle `(v0, v1, v2)` must contribute, namely the concatenation
`[v0,v1, v1,v2, v2,v0]` with each vertex's coordinates in original order.
Used only to compare the implementation against the spec. -/
def specTriangleEdges (t : Tri) : List ℚ :=
  [t.x0, t.y0, t.z0] ++ [t.x1, t.y1, t.z1]
    ++ [t.x1, t.y1, t.z1] ++ [t.x2, t.y2, t.z2]
    ++ [t.x2, t.y2, t.z2] ++ [t.x0, t.y0, t.z0]

lemma extract_cons9 (x0 x1 x2 x3 x4 x5 x6 x7 x8 : ℚ) (rest : List ℚ) :
    extract_edges_from_triangles
        (x0 :: x1 :: x2 :: x3 :: x4 :: x5 :: x6 :: x7 :: x8 :: rest) =
      x0 :: x1 :: x2 :: x3 :: x4 :: x5
        :: x3 :: x4 :: x5 :: x6 :: x7 :: x8
        :: x6 :: x7 :: x8 :: x0 :: x1 :: x2
        :: extract_edges_from_triangles rest := rfl

lemma extract_short : ∀ l : List ℚ, l.length < 9 →
    extract_edges_from_triangles l = []
  | [], _ => rfl
  | [_], _ => rfl
  | [_, _], _ => rfl
  | [_, _, _], _ => rfl
  | [_, _, _, _], _ => rfl
  | [_, _, _, _, _], _ => rfl
  | [_, _, _, _, _, _], _ => rfl
  | [_, _, _, _, _, _, _], _ => rfl
  | [_, _, _, _, _, _, _, _], _ => rfl
  | _ :: _ :: _ :: _ :: _ :: _ :: _ :: _ :: _ :: _, h => by
      simp at h; omega

lemma extract_length : ∀ l : List ℚ,
    (extract_edges_from_triangles l).length = 18 * (l.length / 9)
  | x0 :: x1 :: x2 :: x3 :: x4 :: x5 :: x6 :: x7 :: x8 :: rest => by
      rw [extract_cons9]
      have ih := extract_length rest
      simp only [List.length_cons] at *
      omega
  | [] => rfl
  | [_] => by rw [extract_short _ (by norm_num)]; simp
  | [_, _] => by rw [extract_short _ (by norm_num)]; simp
  | [_, _, _] => by rw [extract_short _ (by norm_num)]; simp
  | [_, _, _, _] => by rw [extract_short _ (by norm_num)]; simp
  | [_, _, _, _, _] => by rw [extract_short _ (by norm_num)]; simp
  | [_, _, _, _, _, _] => by rw [extract_short _ (by norm_num)]; simp
  | [_, _, _, _, _, _, _] => by rw [extract_short _ (by norm_num)]; simp
  | [_, _, _, _, _, _, _, _] => by rw [extract_short _ (by norm_num)]; simp

lemma extract_append_of_mod : ∀ l r : List ℚ, l.length % 9 = 0 →
    r.length < 9 →
    extract_edges_from_triangles (l ++ r) = extract_edges_from_triangles l
  | [], r, _, hr => by
      simpa using extract_short r hr
  | x0 :: x1 :: x2 :: x3 :: x4 :: x5 :: x6 :: x7 :: x8 :: rest, r, hl, hr => by
      have hrest : rest.length % 9 = 0 := by
        simp only [List.length_cons] at hl; omega
      simp only [List.cons_append, extract_cons9]
      rw [extract_append_of_mod rest r hrest hr]
  | [_], _, hl, _ => by simp at hl
  | [_, _], _, hl, _ => by simp at hl
  | [_, _, _], _, hl, _ => by simp at hl
  | [_, _, _, _], _, hl, _ => by simp at hl
  | [_, _, _, _, _], _, hl, _ => by simp at hl
  | [_, _, _, _, _, _], _, hl, _ => by simp at hl
  | [_, _, _, _, _, _, _], _, hl, _ => by simp at hl
  | [_, _, _, _, _, _, _, _], _, hl, _ => by simp at hl

lemma extract_flat_append (t : Tri) (rest : List ℚ) :
    extract_edges_from_triangles (t.flat ++ rest) =
      specTriangleEdges t ++ extract_edges_from_triangles rest := rfl

lemma extract_flatten : ∀ ts : List Tri,
    extract_edges_from_triangles ((ts.map Tri.flat).flatten) =
      (ts.map specTriangleEdges).flatten
  | [] => rfl
  | t :: ts => by
      simp only [List.map_cons, List.flatten_cons]
      rw [extract_flat_append, extract_flatten ts]

lemma flat_flatten_length : ∀ ts : List Tri,
    ((ts.map Tri.flat).flatten).length = 9 * ts.length
  | [] => rfl
  | t :: ts => by
      simp only [List.map_cons, List.flatten_cons, List.length_append,
        List.length_cons]
      have := flat_flatten_length ts
      simp only [Tri.flat, List.length_cons, List.length_nil] at *
      omega

/-- Camera and drag state of the main loop (src/main.rs:139-147):
`camera_theta`, `camera_phi`, `camera_zoom_factor`, `mouse_last_x`,
`mouse_last_y`, `mouse_is_dragging`. -/
structure CameraState where
  theta : ℚ
  phi : ℚ
  zoom_factor : ℚ
  last_x : ℚ
  last_y : ℚ
  dragging : Bool
deriving DecidableEq

/-- Initial camera and drag state (src/main.rs:139-147): theta 0, phi 0,
zoom factor 1.0, last cursor (0, 0), not dragging. -/
def initialCamera : CameraState :=
  { theta := 0, phi := 0, zoom_factor := 1, last_x := 0, last_y := 0,
    dragging := false }

/-- The input events matched by the main loop (src/main.rs:155-231).
Coordinates and wheel deltas are the `f32` payloads of the SDL events. -/
inductive Event where
  | quit
  | keyEscape
  | mouseButtonDownLeft (x y : ℚ)
  | mouseButtonUpLeft
  | mouseMotion (x y : ℚ)
  | keyArrowLeft
  | keyArrowRight
  | keyArrowUp
  | keyArrowDown
  | mouseWheel (y : ℚ)
  | otherEvent
deriving DecidableEq

/-- One step of the main loop's event match (src/main.rs:155-231).
`quit` and `keyEscape` break the loop and touch no camera state. -/
def processEvent (s : CameraState) (e : Event) : CameraState :=
  match e with
  | .quit => s
  | .keyEscape => s
  | .mouseButtonDownLeft x y =>
      { s with dragging := true, last_x := x, last_y := y }
  | .mouseButtonUpLeft =>
      { s with dragging := false }
  | .mouseMotion x y =>
      if s.dragging then
        let dx := x - s.last_x
        let dy := y - s.last_y
        let theta := s.theta + dx * 0.005
        let phi := s.phi + dy * 0.005
        { s with theta := theta,
                 phi := clamp phi (-FRAC_PI_2) FRAC_PI_2,
                 last_x := x, last_y := y }
      else s
  | .keyArrowLeft => { s with theta := s.theta - 0.1 }
  | .keyArrowRight => { s with theta := s.theta + 0.1 }
  | .keyArrowUp =>
      let phi := s.phi + 0.1
      { s with phi := if phi > FRAC_PI_2 then FRAC_PI_2 else phi }
  | .keyArrowDown =>
      let phi := s.phi - 0.1
      { s with phi := if phi < -FRAC_PI_2 then -FRAC_PI_2 else phi }
  | .mouseWheel y =>
      let z := if y > 0 then s.zoom_factor - 0.1 else s.zoom_factor + 0.1
      { s with zoom_factor := clamp z 0.1 10.0 }
  | .otherEvent => s

/-- Draining the pending events of one loop iteration, in arrival order
(src/main.rs:154). -/
def processEvents (s : CameraState) (es : List Event) : CameraState :=
  es.foldl processEvent s

/-- The results the graphics backend hands back during
`create_shader_program`, in call order (src/main.rs:298-330):
`create_shader`/`create_program` results (handles or GL error strings) and
the compile/link status booleans with their info logs.  `glow` reports
`true` for a shader that compiled (program that linked) successfully. -/
structure GlShaderBackend where
  create_vertex_shader : Except String Nat
  vertex_compile_status : Bool
  vertex_info_log : String
  create_fragment_shader : Except String Nat
  fragment_compile_status : Bool
  fragment_info_log : String
  create_program : Except String Nat
  link_status : Bool
  program_info_log : String

/-- Embedding of `WrapGlErrorExt::wrap_gl_error` (src/errors.rs:7-11). -/
def wrap_gl_error (r : Except String Nat) : Except String Nat :=
  match r with
  | .ok v => .ok v
  | .error msg => .error ("gl error: " ++ msg)

/-- Embedding of `create_shader_program` (src/main.rs:298-330), with the
backend's responses passed in explicitly.  Note the source tests
`if gl.get_shader_compile_status(..)` / `if gl.get_program_link_status(..)`
and bails inside the true branch. -/
def create_shader_program (gl : GlShaderBackend) : Except String Nat := do
  let _vertex_shader ← wrap_gl_error gl.create_vertex_shader
  if gl.vertex_compile_status then
    throw ("vertex shader failed to compile: " ++ gl.vertex_info_log)
  let _fragment_shader ← wrap_gl_error gl.create_fragment_shader
  if gl.fragment_compile_status then
    throw ("fragment shader failed to compile: " ++ gl.fragment_info_log)
  let program ← wrap_gl_error gl.create_program
  if gl.link_status then
    throw ("program failed to link: " ++ gl.program_info_log)
  return program

/-- Primitive kinds used by the three draw calls. -/
inductive Primitive where
  | triangles
  | lines
deriving DecidableEq

/-- One `draw_arrays(primitive, first, count)` call. -/
structure DrawCall where
  primitive : Primitive
  first : Nat
  count : Nat
deriving DecidableEq

/-- The three draw calls of one frame, with the counts the source computes
(src/main.rs:255-267, 439-496): `draw_obj` receives
`vertex_data.len() / 3`, `draw_edges` receives `edge_data.len()` where
`edge_data = extract_edges_from_triangles(&vertex_data)`, and `draw_axes`
always draws 6 vertices. -/
def frameDrawCalls (vertex_data : List ℚ) : List DrawCall :=
  let edge_data := extract_edges_from_triangles vertex_data
  [ { primitive := .triangles, first := 0, count := vertex_data.length / 3 },
    { primitive := .lines, first := 0, count := edge_data.length },
    { primitive := .lines, first := 0, count := 6 } ]

/-- Depth-test-relevant GL commands issued by the main loop, in program
order (src/main.rs:122, 242-271). -/
inductive GlCmd where
  | enableDepthTest
  | disableDepthTest
  | clearFrame
  | drawMesh
  | drawEdges
  | drawGizmo
  | swapWindow
deriving DecidableEq

/-- Effect of a command on the depth-test enable flag. -/
def depthStep (d : Bool) : GlCmd → Bool
  | .enableDepthTest => true
  | .disableDepthTest => false
  | _ => d

/-- Depth-test flag after a command sequence runs from flag `d`. -/
def depthAfter (d : Bool) (cmds : List GlCmd) : Bool :=
  cmds.foldl depthStep d

/-- Each command paired with the depth-test flag in effect when it starts
executing. -/
def depthTrace (d : Bool) : List GlCmd → List (GlCmd × Bool)
  | [] => []
  | c :: cs => (c, d) :: depthTrace (depthStep d c) cs

/-- The command sequence of one frame of the render loop
(src/main.rs:242-271): clear, mesh pass, edge pass, disable depth test,
gizmo pass, re-enable depth test, present. -/
def frameCmds : List GlCmd :=
  [ .clearFrame, .drawMesh, .drawEdges,
    .disableDepthTest, .drawGizmo, .enableDepthTest,
    .swapWindow ]

/-- The commands of `frames` consecutive iterations of the render loop.
Setup (src/main.rs:122) has already run `gl.enable(DEPTH_TEST)`, so traces
of this list start from flag `true`. -/
def renderLoopCmds (frames : Nat) : List GlCmd :=
  (List.replicate frames frameCmds).flatten

/-- Whether one traced command respects the claimed depth-test discipline:
the flag is up for the mesh and edge draws (and at the clear, the disable
and the present), down for the gizmo draw, and only the re-enabling
command may otherwise observe a lowered flag. -/
def depthPairOk : GlCmd × Bool → Bool
  | (.drawMesh, d) => d
  | (.drawEdges, d) => d
  | (.drawGizmo, d) => !d
  | (.enableDepthTest, _) => true
  | (.disableDepthTest, d) => d
  | (.clearFrame, d) => d
  | (.swapWindow, d) => d

lemma depthTrace_append (d : Bool) (l1 l2 : List GlCmd) :
    depthTrace d (l1 ++ l2) =
      depthTrace d l1 ++ depthTrace (depthAfter d l1) l2 := by
  induction l1 generalizing d with
  | nil => rfl
  | cons c cs ih =>
      simp only [List.cons_append, depthTrace, List.append_eq, ih, depthAfter,
        List.foldl]

lemma clamp_mem (x lo hi : ℚ) (h : lo ≤ hi) :
    lo ≤ clamp x lo hi ∧ clamp x lo hi ≤ hi := by
  unfold clamp
  exact ⟨le_max_left lo _, max_le h (min_le_right x hi)⟩

lemma neg_half_pi_le_half_pi : -FRAC_PI_2 ≤ FRAC_PI_2 := by
  norm_num [FRAC_PI_2]

lemma processEvent_phi_mem (s : CameraState) (e : Event)
    (h1 : -FRAC_PI_2 ≤ s.phi) (h2 : s.phi ≤ FRAC_PI_2) :
    -FRAC_PI_2 ≤ (processEvent s e).phi ∧
      (processEvent s e).phi ≤ FRAC_PI_2 := by
  cases e with
  | mouseMotion x y =>
      simp only [processEvent]
      split
      · exact clamp_mem _ _ _ neg_half_pi_le_half_pi
      · exact ⟨h1, h2⟩
  | keyArrowUp =>
      simp only [processEvent]
      split
      · exact ⟨neg_half_pi_le_half_pi, le_refl _⟩
      · rename_i hc
        rw [not_lt] at hc
        exact ⟨by linarith, hc⟩
  | keyArrowDown =>
      simp only [processEvent]
      split
      · exact ⟨le_refl _, neg_half_pi_le_half_pi⟩
      · rename_i hc
        rw [not_lt] at hc
        exact ⟨hc, by linarith⟩
  | quit => exact ⟨h1, h2⟩
  | keyEscape => exact ⟨h1, h2⟩
  | mouseButtonDownLeft x y => exact ⟨h1, h2⟩
  | mouseButtonUpLeft => exact ⟨h1, h2⟩
  | keyArrowLeft => exact ⟨h1, h2⟩
  | keyArrowRight => exact ⟨h1, h2⟩
  | mouseWheel y =>
      simp only [processEvent]
      exact ⟨h1, h2⟩
  | otherEvent => exact ⟨h1, h2⟩

/-- C5: starting from any pitch in the clamp range, after every sequence of
input events the pitch stays within the clamp range (the program's clamp
constant is the `f32` value of π/2), so no out-of-range pitch is ever
exposed to the renderer at a frame boundary. -/
theorem camera_phi_invariant (s : CameraState) (es : List Event)
    (h1 : -FRAC_PI_2 ≤ s.phi) (h2 : s.phi ≤ FRAC_PI_2) :
    -FRAC_PI_2 ≤ (processEvents s es).phi ∧
      (processEvents s es).phi ≤ FRAC_PI_2 := by
  induction es generalizing s with
  | nil => exact ⟨h1, h2⟩
  | cons e es ih =>
      have h := processEvent_phi_mem s e h1 h2
      exact ih (processEvent s e) h.1 h.2

theorem camera_phi_invariant_witness :
    -FRAC_PI_2 ≤ (processEvents initialCamera
        [Event.keyArrowUp, Event.mouseMotion 3 5]).phi ∧
      (processEvents initialCamera
        [Event.keyArrowUp, Event.mouseMotion 3 5]).phi ≤ FRAC_PI_2 :=
  camera_phi_invariant initialCamera [Event.keyArrowUp, Event.mouseMotion 3 5]
    (by norm_num [initialCamera, FRAC_PI_2])
    (by norm_num [initialCamera, FRAC_PI_2])

lemma processEvent_zoom_mem (s : CameraState) (e : Event)
    (h1 : 0.1 ≤ s.zoom_factor) (h2 : s.zoom_factor ≤ 10.0) :
    0.1 ≤ (processEvent s e).zoom_factor ∧
      (processEvent s e).zoom_factor ≤ 10.0 := by
  cases e with
  | mouseWheel y =>
      simp only [processEvent]
      exact clamp_mem _ _ _ (by norm_num)
  | mouseMotion x y =>
      simp only [processEvent]
      split
      · exact ⟨h1, h2⟩
      · exact ⟨h1, h2⟩
  | keyArrowUp => exact ⟨h1, h2⟩
  | keyArrowDown => exact ⟨h1, h2⟩
  | quit => exact ⟨h1, h2⟩
  | keyEscape => exact ⟨h1, h2⟩
  | mouseButtonDownLeft x y => exact ⟨h1, h2⟩
  | mouseButtonUpLeft => exact ⟨h1, h2⟩
  | keyArrowLeft => exact ⟨h1, h2⟩
  | keyArrowRight => exact ⟨h1, h2⟩
  | otherEvent => exact ⟨h1, h2⟩

lemma processEvents_append (s : CameraState) (l1 l2 : List Event) :
    processEvents s (l1 ++ l2) = processEvents (processEvents s l1) l2 := by
  simp [processEvents, List.foldl_append]

lemma wheelup_fixed (n : Nat) : ∀ s : CameraState, s.zoom_factor = 0.1 →
    (processEvents s (List.replicate n (Event.mouseWheel 1))).zoom_factor
      = 0.1 := by
  induction n with
  | zero => intro s h; exact h
  | succ n ih =>
      intro s h
      rw [List.replicate_succ]
      show (processEvents (processEvent s (Event.mouseWheel 1))
          (List.replicate n (Event.mouseWheel 1))).zoom_factor = 0.1
      apply ih
      simp only [processEvent]
      rw [h]
      norm_num [clamp, min_def, max_def]

lemma wheelup_nine :
    (processEvents initialCamera
        (List.replicate 9 (Event.mouseWheel 1))).zoom_factor = 0.1 := by
  norm_num [processEvents, processEvent, List.replicate, List.foldl,
    initialCamera, clamp, min_def, max_def]

lemma wheelup_fifty :
    (processEvents initialCamera
        (List.replicate 50 (Event.mouseWheel 1))).zoom_factor = 0.1 := by
  rw [show (50 : Nat) = 9 + 41 by norm_num, List.replicate_add,
    processEvents_append]
  exact wheelup_fixed 41 _ wheelup_nine

/-- C6: starting from any zoom factor in [0.1, 10.0], every sequence of
scroll (and other) events leaves it in [0.1, 10.0]; and 50 consecutive
scroll-up events (positive delta) from the initial zoom factor 1.0 leave
it at exactly 0.1. -/
theorem camera_zoom_invariant (s : CameraState) (es : List Event)
    (h1 : 0.1 ≤ s.zoom_factor) (h2 : s.zoom_factor ≤ 10.0) :
    (0.1 ≤ (processEvents s es).zoom_factor ∧
      (processEvents s es).zoom_factor ≤ 10.0) ∧
    (processEvents initialCamera
        (List.replicate 50 (Event.mouseWheel 1))).zoom_factor = 0.1 := by
  refine ⟨?_, wheelup_fifty⟩
  induction es generalizing s with
  | nil => exact ⟨h1, h2⟩
  | cons e es ih =>
      have h := processEvent_zoom_mem s e h1 h2
      exact ih (processEvent s e) h.1 h.2

theorem camera_zoom_invariant_witness :
    ((0.1 : ℚ) ≤ (processEvents initialCamera
        [Event.mouseWheel 1]).zoom_factor ∧
      (processEvents initialCamera [Event.mouseWheel 1]).zoom_factor ≤ 10.0) ∧
    (processEvents initialCamera
        (List.replicate 50 (Event.mouseWheel 1))).zoom_factor = 0.1 :=
  camera_zoom_invariant initialCamera [Event.mouseWheel 1]
    (by norm_num [initialCamera]) (by norm_num [initialCamera])

/-- C7: while dragging, a pointer-move whose delta against the last tracked
cursor position is (100, 0) adds exactly 100 * 0.005 = 0.5 to theta and
leaves phi unchanged (pitch strictly inside its clamp bounds). -/
theorem pointer_move_delta (s : CameraState) (x y : ℚ)
    (hd : s.dragging = true)
    (hx : x - s.last_x = 100) (hy : y - s.last_y = 0)
    (hlo : -FRAC_PI_2 < s.phi) (hhi : s.phi < FRAC_PI_2) :
    (processEvent s (Event.mouseMotion x y)).theta = s.theta + 0.5 ∧
      (processEvent s (Event.mouseMotion x y)).phi = s.phi := by
  simp only [processEvent, hd, if_true]
  constructor
  · rw [hx]; norm_num
  · rw [hy]
    unfold clamp
    rw [zero_mul, add_zero, min_eq_left (le_of_lt hhi),
      max_eq_right (le_of_lt hlo)]

theorem pointer_move_delta_witness :
    (processEvent { initialCamera with dragging := true }
        (Event.mouseMotion 100 0)).theta =
      ({ initialCamera with dragging := true } : CameraState).theta + 0.5 ∧
    (processEvent { initialCamera with dragging := true }
        (Event.mouseMotion 100 0)).phi =
      ({ initialCamera with dragging := true } : CameraState).phi :=
  pointer_move_delta { initialCamera with dragging := true } 100 0
    rfl (by norm_num [initialCamera]) (by norm_num [initialCamera])
    (by norm_num [initialCamera, FRAC_PI_2])
    (by norm_num [initialCamera, FRAC_PI_2])

/-- C8: a primary-button press immediately followed by a primary-button
release, with no intervening motion, leaves theta, phi and zoom factor
unchanged. -/
theorem press_release_no_camera_change (s : CameraState) (x y : ℚ) :
    (processEvent (processEvent s (Event.mouseButtonDownLeft x y))
        Event.mouseButtonUpLeft).theta = s.theta ∧
    (processEvent (processEvent s (Event.mouseButtonDownLeft x y))
        Event.mouseButtonUpLeft).phi = s.phi ∧
    (processEvent (processEvent s (Event.mouseButtonDownLeft x y))
        Event.mouseButtonUpLeft).zoom_factor = s.zoom_factor :=
  ⟨rfl, rfl, rfl⟩

/-- C10: a scroll event with vertical delta exactly 0 takes the zoom-out
branch: the zoom factor is increased by 0.1 and then clamped to
[0.1, 10.0]. -/
theorem scroll_zero_zooms_out (s : CameraState) :
    (processEvent s (Event.mouseWheel 0)).zoom_factor =
      clamp (s.zoom_factor + 0.1) 0.1 10.0 := by
  norm_num [processEvent]

/-- C4: on a well-formed input of n triangles the extractor returns exactly
the spec's 18 floats per triangle, in triangle order — the concatenation
[v0,v1, v1,v2, v2,v0] for each triangle — for a total length of 18n
(empty when n = 0). -/
theorem extract_edges_well_formed (ts : List Tri) :
    extract_edges_from_triangles ((ts.map Tri.flat).flatten) =
      (ts.map specTriangleEdges).flatten ∧
    (extract_edges_from_triangles ((ts.map Tri.flat).flatten)).length =
      18 * ts.length := by
  refine ⟨extract_flatten ts, ?_⟩
  rw [extract_length, flat_flatten_length]
  omega

/-- C2 counterexample: on the 10-float input [1, ..., 10], whose length is
not a multiple of 9, the extractor does not fail: it returns the 18 floats
extracted from the first 9 floats, silently dropping the 10th — partial
output, contradicting the claim. -/
theorem extract_edges_ten_input_truncates :
    ([1, 2, 3, 4, 5, 6, 7, 8, 9, 10] : List ℚ).length % 9 ≠ 0 ∧
    extract_edges_from_triangles [1, 2, 3, 4, 5, 6, 7, 8, 9, 10] =
      [1, 2, 3, 4, 5, 6, 4, 5, 6, 7, 8, 9, 7, 8, 9, 1, 2, 3] ∧
    extract_edges_from_triangles [1, 2, 3, 4, 5, 6, 7, 8, 9, 10] ≠ [] := by
  refine ⟨by norm_num, rfl, by simp [extract_edges_from_triangles]⟩

/-- C2 amended: on an input whose length is not a multiple of 9 the
extractor does not fail; it silently ignores the trailing (length mod 9)
floats and returns exactly the 18·⌊length/9⌋ floats extracted from the
complete 9-float triangles. -/
theorem extract_edges_silent_truncation (l r : List ℚ)
    (hl : l.length % 9 = 0) (hr : r.length < 9) :
    extract_edges_from_triangles (l ++ r) =
      extract_edges_from_triangles l ∧
    (extract_edges_from_triangles (l ++ r)).length = 18 * (l.length / 9) := by
  refine ⟨extract_append_of_mod l r hl hr, ?_⟩
  rw [extract_append_of_mod l r hl hr, extract_length]

theorem extract_edges_silent_truncation_witness :
    extract_edges_from_triangles ([1, 2, 3, 4, 5, 6, 7, 8, 9] ++ [10]) =
      extract_edges_from_triangles [1, 2, 3, 4, 5, 6, 7, 8, 9] ∧
    (extract_edges_from_triangles ([1, 2, 3, 4, 5, 6, 7, 8, 9] ++ [10])).length =
      18 * (([1, 2, 3, 4, 5, 6, 7, 8, 9] : List ℚ).length / 9) :=
  extract_edges_silent_truncation [1, 2, 3, 4, 5, 6, 7, 8, 9] [10]
    (by norm_num) (by norm_num)

/-- C1 evaluation: `create_shader_program` tests the backend's
compile/link statuses with the polarity inverted.  When the backend
reports the vertex shader compiled successfully (status `true`), the
function aborts with the "failed to compile" diagnostic; when the backend
reports that both shaders failed to compile and the program failed to
link (all statuses `false`), the function returns the program as a
success. -/
theorem create_shader_program_inverted_status :
    create_shader_program
        { create_vertex_shader := .ok 1, vertex_compile_status := true,
          vertex_info_log := "diag", create_fragment_shader := .ok 2,
          fragment_compile_status := false, fragment_info_log := "",
          create_program := .ok 3, link_status := false,
          program_info_log := "" } =
      .error "vertex shader failed to compile: diag" ∧
    create_shader_program
        { create_vertex_shader := .ok 1, vertex_compile_status := false,
          vertex_info_log := "", create_fragment_shader := .ok 2,
          fragment_compile_status := false, fragment_info_log := "",
          create_program := .ok 3, link_status := false,
          program_info_log := "" } =
      .ok 3 := ⟨rfl, rfl⟩

/-- C3 evaluation: for a single-triangle mesh (9 floats) the frame's draw
calls are mesh: 3 vertices (triangle count x 3, as claimed), edges: 18
vertices (the edge buffer's float count, not the 6 = 2 x 3 x 1 edge
endpoints the claim states), gizmo: 6 vertices. -/
theorem edge_draw_count_is_float_count :
    frameDrawCalls [0, 0, 0, 1, 0, 0, 0, 1, 0] =
      [ { primitive := .triangles, first := 0, count := 3 },
        { primitive := .lines, first := 0, count := 18 },
        { primitive := .lines, first := 0, count := 6 } ] ∧
    (18 : Nat) ≠ 2 * 3 * 1 := ⟨rfl, by norm_num⟩

lemma depthOk_frame : (depthTrace true frameCmds).all depthPairOk = true :=
  rfl

lemma depthAfter_frame : depthAfter true frameCmds = true := rfl

/-- C9: over any number of frames of the render loop (starting after the
setup enable of depth testing), the depth-test flag is up when the mesh
pass and the edge pass draw, down exactly for the gizmo pass draw, and is
re-enabled by the end of every frame, so it is up again before the next
frame's opaque pass; no other command ever observes it down. -/
theorem depth_test_discipline (frames : Nat) :
    (depthTrace true (renderLoopCmds frames)).all depthPairOk = true ∧
    depthAfter true (renderLoopCmds frames) = true := by
  induction frames with
  | zero => exact ⟨rfl, rfl⟩
  | succ n ih =>
      have hcons : renderLoopCmds (n + 1) = frameCmds ++ renderLoopCmds n := by
        simp [renderLoopCmds, List.replicate_succ]
      rw [hcons]
      constructor
      · rw [depthTrace_append, List.all_append, depthAfter_frame,
          depthOk_frame, ih.1]
        rfl
      · show depthAfter true (frameCmds ++ renderLoopCmds n) = true
        unfold depthAfter
        rw [List.foldl_append]
        exact ih.2
